import Mathlib

/-!
Verification of the modpack installer CLI (`src/cli.js`) against its
specification. The source is shallowly embedded: JavaScript values that the
validation logic inspects are modelled by `JVal` with JS truthiness and
`isNaN` coercion; the asynchronous installation pipeline is modelled as a
function from its external inputs (parsed manifest, per-item fetch outcomes,
clock, working directory) to the list of actions it performs, where each
filesystem/network operation is tagged as awaited (completed before the next
step starts) or spawned (started but not awaited, as with a bare promise).
-/

namespace ModpackInstaller

/-- A JavaScript value as far as the manifest validation logic inspects it:
`config.pack.format` may be a number, a string, a boolean or null. Numbers are
modelled as integers (the formats in use are small integers). -/
inductive JVal where
  | jnum (n : Int)
  | jstr (s : String)
  | jbool (b : Bool)
  | jnull
deriving Repr, DecidableEq

/-- JavaScript truthiness of a `JVal`: `0`, `""`, `false` and `null` are
falsy, everything else is truthy. -/
def JVal.truthy : JVal → Bool
  | .jnum n => n ≠ 0
  | .jstr s => s ≠ ""
  | .jbool b => b
  | .jnull => false

/-- The natural number denoted by a list of decimal digit characters. -/
def digitsToNat (l : List Char) : Nat :=
  l.foldl (fun acc c => acc * 10 + (c.toNat - 48)) 0

/-- Model of JavaScript `Number(v)` restricted to the value shapes of `JVal`:
`none` means the coercion yields `NaN`. A number coerces to itself, `true`/
`false` to `1`/`0`, `null` and the empty string to `0`, a non-empty string of
decimal digits (optionally with a leading minus sign) to the corresponding
integer, and any other string to `NaN`. -/
def jsToNumber : JVal → Option Int
  | .jnum n => some n
  | .jbool true => some 1
  | .jbool false => some 0
  | .jnull => some 0
  | .jstr s =>
    match s.data with
    | [] => some 0
    | '-' :: rest =>
      if rest ≠ [] && rest.all Char.isDigit then
        some (-(Int.ofNat (digitsToNat rest)))
      else none
    | l =>
      if l.all Char.isDigit then some (Int.ofNat (digitsToNat l)) else none

/-- Model of JavaScript `isNaN(v)`. -/
def jsIsNaN (v : JVal) : Bool :=
  (jsToNumber v).isNone

/-- JavaScript `a || b` for an optional string `a` (absent or empty means
falsy): used for `mod.name || fallback` and similar. -/
def jsOrStr (a : Option String) (b : String) : String :=
  match a with
  | some s => if s = "" then b else s
  | none => b

/-- Truthiness of an optional string field (`if (mod.name)` etc.). -/
def strTruthy : Option String → Bool
  | some s => s ≠ ""
  | none => false

/-- The CLI options relevant to the pipeline (`argv`). -/
structure Argv where
  config : String
  folder : String
  clean : Bool
  ignoreScripts : Bool
deriving Repr, DecidableEq

/-- `config.pack` of the manifest. -/
structure Pack where
  name : Option String
  format : Option JVal
deriving Repr, DecidableEq

/-- One entry of `config.servers`. -/
structure Server where
  name : String
  ip : String
deriving Repr, DecidableEq

/-- One entry of `config.mods`. -/
structure Mod where
  type : Option String
  projectID : String
  fileID : String
  url : String
  name : Option String
deriving Repr, DecidableEq

/-- The parsed manifest (`config`). `scripts` is an association list modelling
the JS object `config.scripts`. -/
structure Config where
  pack : Option Pack
  servers : Option (List Server)
  splash : Option (List (String × String))
  mods : List Mod
  scripts : Option (List (String × String))
deriving Repr, DecidableEq

/-- A log type from the `types` table: its prefix text and whether logging at
this type exits the process (`exit`). -/
structure LogType where
  prefixText : String
  exit : Bool
deriving Repr, DecidableEq

/-- The `types` table of the source: `critical` is the only type that
exits. -/
def types : String → Option LogType
  | "critical" => some ⟨"CRITICAL", true⟩
  | "darn" => some ⟨"   ERROR", false⟩
  | "info" => some ⟨"    INFO", false⟩
  | "yay" => some ⟨" SUCCESS", false⟩
  | _ => none

/-- `types[typeName] || types.darn`: the log type used by `log`. -/
def logTypeOf (typeName : String) : LogType :=
  (types typeName).getD ⟨"   ERROR", false⟩

/-- The status the process exits with when `log` hits a type with the `exit`
flag: the source calls `process.exit(0)`. `none` means the log call
returns. -/
def logExitStatus (typeName : String) : Option Nat :=
  if (logTypeOf typeName).exit then some 0 else none

/-- `getModUrl`: curseforge mods get a constructed download URL, everything
else uses `mod.url` directly. -/
def getModUrl (m : Mod) : String :=
  match m.type with
  | some "curseforge" =>
    "https://minecraft.curseforge.com/projects/" ++ m.projectID ++
      "/files/" ++ m.fileID ++ "/download"
  | _ => m.url

/-- JavaScript `s.split(sep)` for a one-character separator, over char
lists: splitting the empty string yields one empty field. -/
def splitChar (c : Char) : List Char → List (List Char)
  | [] => [[]]
  | x :: xs =>
    if x = c then [] :: splitChar c xs
    else
      match splitChar c xs with
      | [] => [[x]]
      | h :: t => (x :: h) :: t

/-- Strips `p` from the front of `l`, or `none` when `l` does not start
with `p`. -/
def dropPrefixChars : List Char → List Char → Option (List Char)
  | [], l => some l
  | _, [] => none
  | p :: ps, x :: xs => if x = p then dropPrefixChars ps xs else none

/-- The last segment of a `/`-separated path, as computed by
`paths = pathname.split("/"); paths[paths.length - 1]`. -/
def lastSegment (pathname : String) : String :=
  ⟨(splitChar '/' pathname.data).getLastD []⟩

/-- The path component of an http(s) URL, as the `got` transport reports it in
`request.gotOptions.pathname` (via `url.parse`): scheme and authority are
stripped, the remainder starting at the first `/` is the pathname. Modelled
for the plain http(s) URLs the installer handles. -/
def urlPathname (url : String) : String :=
  let rest :=
    match dropPrefixChars "https://".data url.data with
    | some r => r
    | none =>
      match dropPrefixChars "http://".data url.data with
      | some r => r
      | none => url.data
  match splitChar '/' rest with
  | [] => "/"
  | [_] => "/"
  | _ :: segs => "/" ++ String.intercalate "/" (segs.map fun l => String.mk l)

/-- The destination filename of a fetched mod:
`(mod.name || lastSegment) + ".jar"`. -/
def destFilename (m : Mod) (resolvedPathname : String) : String :=
  jsOrStr m.name (lastSegment resolvedPathname) ++ ".jar"

/-- The default header of `keyValConfig`. -/
def defaultHeader : String := "Generated by haykam821\x27s modpack installer"

/-- `keyValConfig(obj, header, timestamp)`: serializes an object (modelled as
an association list in insertion order) into `key=value` lines, preceded by an
optional `# header` line and an optional `# timestamp` line. The timestamp
text (`new Date().toUTCString()`) is impure in the source, so the current
clock reading is passed as `now`. -/
def keyValConfig (obj : List (String × String)) (header : String)
    (timestamp : Bool) (now : String) : String :=
  let keyVal := String.intercalate "\n" (obj.map fun entry => entry.1 ++ "=" ++ entry.2)
  let headerThing := if header ≠ "" then "# " ++ header ++ "\n" else ""
  let timestampThing := if timestamp then "# " ++ now ++ "\n" else ""
  headerThing ++ timestampThing ++ keyVal

/-- The contents of a directory, when it exists: `none` models an absent
directory, `some files` a directory holding `files`. -/
abbrev DirState := Option (List String)

/-- `fs-extra`'s `emptyDir`: the directory exists and is empty afterwards,
any previous contents are deleted. -/
def fsEmptyDir (_st : DirState) : DirState :=
  some []

/-- `fs-extra`'s `ensureDir`: the directory is created empty when absent and
left untouched otherwise. -/
def fsEnsureDir (st : DirState) : DirState :=
  some (st.getD [])

/-- `ensure(argv, ...dirs)` as its effect on the state of the target
directory: `emptyDir` when `--clean`, `ensureDir` otherwise. -/
def ensure (argv : Argv) (st : DirState) : DirState :=
  if argv.clean then fsEmptyDir st else fsEnsureDir st

/-- The target location `path.join(argv.folder, ...dirs)` of an `ensure`
call, for the relative segments the installer uses (`path.join` normalizes
the leading `./`). -/
def ensureLocation (argv : Argv) (dirs : List String) : String :=
  argv.folder ++ String.join (dirs.map fun d => "/" ++ d)

/-- A child process as launched by `exec(command, options)`. -/
structure Launched where
  cmd : String
  cwd : String
  env : List (String × String)
deriving Repr, DecidableEq

/-- `script(name, config, argv)`: returns the launched process, or `none`
when no process is launched. `procCwd` is `process.cwd()`. The environment
passed to `exec` contains exactly the one variable `MODPACK_FOLDER`. -/
def script (name : String) (config : Config) (argv : Argv)
    (procCwd : String) : Option Launched :=
  if argv.ignoreScripts then none
  else
    match config.scripts with
    | none => none
    | some scripts =>
      match scripts.lookup name with
      | none => none
      | some cmd =>
        if cmd = "" then none
        else some ⟨cmd, procCwd, [("MODPACK_FOLDER", argv.folder)]⟩

/-- A node of the tagged-tree (NBT) payload, as far as the installer builds
it: string tags, lists and compounds of named children. -/
inductive NbtTag where
  | tagString (value : String)
  | tagList (items : List NbtTag)
  | tagCompound (fields : List (String × NbtTag))

/-- The server-list payload passed to `nbt.writeUncompressed`: a root compound
named `"servers"` with one list child `"servers"` of per-server compounds,
each with string fields `ip` and `name`. The root name is the first
component. -/
def serversNbt (servers : List Server) : String × NbtTag :=
  ("servers",
    .tagCompound [("servers",
      .tagList (servers.map fun server =>
        .tagCompound [("ip", .tagString server.ip),
                      ("name", .tagString server.name)]))])

/-- `path.join(argv.folder, "./servers.dat")`. -/
def serversDatPath (argv : Argv) : String :=
  argv.folder ++ "/servers.dat"

/-- `path.join(argv.folder, "./config/splash.properties")`. -/
def splashPath (argv : Argv) : String :=
  argv.folder ++ "/config/splash.properties"

/-- `path.join(argv.folder, "./mods/", filename + ".jar")` (the `.jar` suffix
is part of `filename` here). -/
def modsJarPath (argv : Argv) (filename : String) : String :=
  argv.folder ++ "/mods/" ++ filename

/-- A filesystem or network operation performed by the pipeline. -/
inductive Op where
  | stageOp (segments : List String) (clean : Bool)
  | readConfigOp (path : String)
  | fetchOp (url : String)
  | writeServersOp (path : String) (rootName : String) (data : NbtTag)
  | writeTextOp (path : String) (content : String)
  | writeBytesOp (path : String) (body : String)

/-- One observable step of the pipeline. An `awaitedOp` is started and
completed before the next action; a `spawnedOp` is started but not awaited,
so its completion is unordered with respect to all later actions. -/
inductive Action where
  | awaitedOp (op : Op)
  | spawnedOp (op : Op)
  | logA (typeName : String) (msg : String)
  | launchA (child : Launched)

/-- Whether an action is a spawned (non-awaited) operation. -/
def Action.isSpawned : Action → Bool
  | .spawnedOp _ => true
  | _ => false

/-- The outcome of one mod fetch, supplied by the HTTP transport: the
response body and the final resolved request pathname, or failure. -/
inductive FetchOutcome where
  | success (body : String) (resolvedPathname : String)
  | failure
deriving Repr, DecidableEq

/-- How the run ends: natural completion, or a `process.exit` with the given
status (triggered by a critical log). -/
inductive RunOutcome where
  | completed
  | exited (status : Nat)
deriving Repr, DecidableEq

/-- The status the operating system reports for the process: `exited c` ends
with status `c`, natural completion ends with status 0. -/
def runExitStatus : RunOutcome → Nat
  | .completed => 0
  | .exited c => c

/-- The critical message logged when the fetch of `m` fails. -/
def fetchFailMsg (m : Mod) : String :=
  match m.name with
  | some s => if s ≠ "" then "Could not fetch " ++ s ++ "." else "Could not fetch a mod."
  | none => "Could not fetch a mod."

/-- The `for await (const mod of config.mods)` loop: the fetch of each mod is
awaited; on failure a critical log ends the run (second component `false`);
on success the body is written to the mods directory and the download is
reported, then the loop continues with the next item. `f k` is the outcome
of the `k`-th remaining fetch. -/
def modLoop (argv : Argv) (f : Nat → FetchOutcome) : List Mod → List Action × Bool
  | [] => ([], true)
  | m :: rest =>
    match f 0 with
    | .failure =>
      ([.awaitedOp (.fetchOp (getModUrl m)), .logA "critical" (fetchFailMsg m)], false)
    | .success body pathname =>
      let filename := destFilename m pathname
      let next := modLoop argv (fun n => f (n + 1)) rest
      (.awaitedOp (.fetchOp (getModUrl m)) ::
        .awaitedOp (.writeBytesOp (modsJarPath argv filename) body) ::
        .logA "info" ("Downloaded " ++ filename ++ ".") :: next.1, next.2)

/-- The critical message for an unreadable manifest file. -/
def readFailMsg : String := "Could not read the modpack config file."

/-- The critical message for a manifest failing the format check. -/
def formatFailMsg : String := "This modpack is not in the correct format."

/-- The schema check
`!config.pack || !config.pack.format || isNaN(config.pack.format)`. -/
def invalidFormat (config : Config) : Bool :=
  match config.pack with
  | none => true
  | some pack =>
    match pack.format with
    | none => true
    | some v => !v.truthy || jsIsNaN v

/-- The info message reporting which modpack is being installed. -/
def installMsg (config : Config) : String :=
  match config.pack with
  | some pack =>
    match pack.name with
    | some s => if s ≠ "" then "Installing the " ++ s ++ " modpack." else "Installing the modpack."
    | none => "Installing the modpack."
  | none => "Installing the modpack."

/-- The trace of launch actions of a `script(...)` call site. -/
def scriptActions (name : String) (config : Config) (argv : Argv)
    (procCwd : String) : List Action :=
  match script name config argv procCwd with
  | some child => [.launchA child]
  | none => []

/-- The actions of `[stage root, read manifest]` that open every run: the
destination root is staged before the manifest file is even read. -/
def opening (argv : Argv) : List Action :=
  [.awaitedOp (.stageOp [] argv.clean), .awaitedOp (.readConfigOp argv.config)]

/-- The single spawned `servers.dat` write, emitted only when
`config.servers` is truthy (present, empty or not). -/
def serversPart (argv : Argv) (config : Config) : List Action :=
  match config.servers with
  | some servers =>
    [.spawnedOp (.writeServersOp (serversDatPath argv) (serversNbt servers).1
      (serversNbt servers).2)]
  | none => []

/-- The splash.properties write, emitted only when `config.splash` is
present. -/
def splashPart (argv : Argv) (config : Config) (now : String) : List Action :=
  match config.splash with
  | some splash =>
    [.awaitedOp (.writeTextOp (splashPath argv)
      (keyValConfig splash defaultHeader true now)),
     .logA "info" "Wrote the splash.properties file."]
  | none => []

/-- All actions of a validated run up to (and excluding) the mod loop, in
program order. -/
def beforeMods (argv : Argv) (config : Config) (now : String)
    (procCwd : String) : List Action :=
  opening argv ++
  scriptActions "start" config argv procCwd ++
  [.logA "info" (installMsg config)] ++
  serversPart argv config ++
  [.awaitedOp (.stageOp ["config"] argv.clean)] ++
  splashPart argv config now ++
  [.awaitedOp (.stageOp ["mods"] argv.clean)]

/-- The command handler (the installation pipeline), as the list of actions it
performs in program order and the run outcome. External inputs: `parsed` is
the result of `fs.readJSON(argv.config)` (`none` when reading or parsing
fails), `f k` the outcome of the fetch of mod `k`, `now` the clock reading
used for the splash timestamp, `procCwd` the value of `process.cwd()`.
The root directory is staged before the manifest is read; the `servers.dat`
write is started with a bare `.then` and not awaited; every other operation
is awaited. -/
def runHandler (argv : Argv) (parsed : Option Config) (f : Nat → FetchOutcome)
    (now : String) (procCwd : String) : List Action × RunOutcome :=
  match parsed with
  | none => (opening argv ++ [.logA "critical" readFailMsg], .exited 0)
  | some config =>
    if invalidFormat config then
      (opening argv ++ [.logA "critical" formatFailMsg], .exited 0)
    else
      let next := modLoop argv f config.mods
      if next.2 then
        (beforeMods argv config now procCwd ++ next.1 ++
          scriptActions "finish" config argv procCwd ++ [.logA "info" "Finished!"],
         .completed)
      else
        (beforeMods argv config now procCwd ++ next.1, .exited 0)

/-- `a` occurs strictly before `b` in the trace `tr`. -/
def precedes (tr : List Action) (a b : Action) : Prop :=
  ∃ l1 l2 l3, tr = l1 ++ a :: (l2 ++ b :: l3)

lemma precedes_append_left (xs tr : List Action) (a b : Action)
    (h : precedes tr a b) : precedes (xs ++ tr) a b := by
  rcases h with ⟨l1, l2, l3, rfl⟩
  exact ⟨xs ++ l1, l2, l3, by simp⟩

lemma precedes_append_right (tr xs : List Action) (a b : Action)
    (h : precedes tr a b) : precedes (tr ++ xs) a b := by
  rcases h with ⟨l1, l2, l3, rfl⟩
  exact ⟨l1, l2, l3 ++ xs, by simp⟩

lemma precedes_cons (x : Action) (tr : List Action) (a b : Action)
    (h : precedes tr a b) : precedes (x :: tr) a b :=
  precedes_append_left [x] tr a b h

/-- The mod loop spawns nothing: each of its operations is awaited. -/
lemma modLoop_not_spawned (argv : Argv) :
    ∀ (mods : List Mod) (f : Nat → FetchOutcome) (a : Action),
      a ∈ (modLoop argv f mods).1 → a.isSpawned = false := by
  intro mods
  induction mods with
  | nil => intro f a ha; simp [modLoop] at ha
  | cons m rest ih =>
    intro f a ha
    cases hf : f 0 with
    | failure =>
      simp [modLoop, hf] at ha
      rcases ha with rfl | rfl <;> rfl
    | success body pathname =>
      simp [modLoop, hf] at ha
      rcases ha with rfl | rfl | rfl | hmem
      · rfl
      · rfl
      · rfl
      · exact ih (fun n => f (n + 1)) a hmem

/-- The trace of the mod loop on a non-empty list always starts with the
fetch of the first item. -/
lemma modLoop_cons_head (argv : Argv) (f : Nat → FetchOutcome) (m : Mod)
    (rest : List Mod) :
    ∃ t, (modLoop argv f (m :: rest)).1 =
      .awaitedOp (.fetchOp (getModUrl m)) :: t := by
  cases hf : f 0 with
  | failure =>
    exact ⟨[.logA "critical" (fetchFailMsg m)], by simp [modLoop, hf]⟩
  | success body pathname =>
    exact ⟨.awaitedOp (.writeBytesOp (modsJarPath argv (destFilename m pathname)) body) ::
      .logA "info" ("Downloaded " ++ destFilename m pathname ++ ".") ::
      (modLoop argv (fun n => f (n + 1)) rest).1, by simp [modLoop, hf]⟩

/-- When the fetches of all items before `k` succeed and the fetch of item
`k` fails, the mod loop trace ends with the fetch of item `k` followed by
the critical log, and the loop reports failure. -/
lemma modLoop_failure (argv : Argv) :
    ∀ (mods : List Mod) (f : Nat → FetchOutcome) (k : Nat) (mk : Mod),
      mods.get? k = some mk →
      (∀ j < k, ∃ b p, f j = .success b p) →
      f k = .failure →
      ∃ l1, (modLoop argv f mods).1 =
          l1 ++ [.awaitedOp (.fetchOp (getModUrl mk)),
                 .logA "critical" (fetchFailMsg mk)] ∧
        (modLoop argv f mods).2 = false := by
  intro mods
  induction mods with
  | nil => intro f k mk hk; simp at hk
  | cons m rest ih =>
    intro f k mk hk hprev hfk
    cases k with
    | zero =>
      simp at hk
      subst hk
      exact ⟨[], by simp [modLoop, hfk], by simp [modLoop, hfk]⟩
    | succ k' =>
      obtain ⟨b, p, h0⟩ := hprev 0 (Nat.succ_pos _)
      obtain ⟨l1, hl1, hok⟩ := ih (fun n => f (n + 1)) k' mk (by simpa using hk)
        (fun j hj => hprev (j + 1) (by omega)) hfk
      refine ⟨.awaitedOp (.fetchOp (getModUrl m)) ::
        .awaitedOp (.writeBytesOp (modsJarPath argv (destFilename m p)) b) ::
        .logA "info" ("Downloaded " ++ destFilename m p ++ ".") :: l1,
        ?_, ?_⟩
      · simp [modLoop, h0, hl1]
      · simp [modLoop, h0, hok]

/-- When the fetches of all items up to `k` succeed, the write of item `k`'s
payload to its destination filename occurs in the mod loop trace. -/
lemma modLoop_write_mem (argv : Argv) :
    ∀ (mods : List Mod) (f : Nat → FetchOutcome) (k : Nat) (mk : Mod)
      (body p : String),
      mods.get? k = some mk →
      (∀ j < k, ∃ b q, f j = .success b q) →
      f k = .success body p →
      Action.awaitedOp (.writeBytesOp (modsJarPath argv (destFilename mk p)) body) ∈
        (modLoop argv f mods).1 := by
  intro mods
  induction mods with
  | nil => intro f k mk body p hk; simp at hk
  | cons m rest ih =>
    intro f k mk body p hk hprev hfk
    cases k with
    | zero =>
      simp at hk
      subst hk
      simp [modLoop, hfk]
    | succ k' =>
      obtain ⟨b, q, h0⟩ := hprev 0 (Nat.succ_pos _)
      have hmem := ih (fun n => f (n + 1)) k' mk body p (by simpa using hk)
        (fun j hj => hprev (j + 1) (by omega)) hfk
      simp [modLoop, h0]
      tauto

/-- When the fetches of all items up to `k` succeed and item `k + 1` exists,
the "Downloaded" report of item `k` strictly precedes the fetch of item
`k + 1` in the mod loop trace. -/
lemma modLoop_seq (argv : Argv) :
    ∀ (mods : List Mod) (f : Nat → FetchOutcome) (k : Nat) (mk mk1 : Mod)
      (bk pk : String),
      mods.get? k = some mk →
      mods.get? (k + 1) = some mk1 →
      (∀ j < k, ∃ b q, f j = .success b q) →
      f k = .success bk pk →
      precedes (modLoop argv f mods).1
        (.logA "info" ("Downloaded " ++ destFilename mk pk ++ "."))
        (.awaitedOp (.fetchOp (getModUrl mk1))) := by
  intro mods
  induction mods with
  | nil => intro f k mk mk1 bk pk hk; simp at hk
  | cons m rest ih =>
    intro f k mk mk1 bk pk hk hk1 hprev hfk
    cases k with
    | zero =>
      simp at hk
      subst hk
      have hk1' : rest.get? 0 = some mk1 := by simpa using hk1
      cases rest with
      | nil => simp at hk1'
      | cons m1 rest' =>
        simp at hk1'
        subst hk1'
        obtain ⟨t, ht⟩ := modLoop_cons_head argv (fun n => f (n + 1)) m1 rest'
        have houter : (modLoop argv f (m :: m1 :: rest')).1 =
            .awaitedOp (.fetchOp (getModUrl m)) ::
            .awaitedOp (.writeBytesOp (modsJarPath argv (destFilename m pk)) bk) ::
            .logA "info" ("Downloaded " ++ destFilename m pk ++ ".") ::
            (modLoop argv (fun n => f (n + 1)) (m1 :: rest')).1 := by
          simp [modLoop, hfk]
        rw [houter, ht]
        exact ⟨[.awaitedOp (.fetchOp (getModUrl m)),
                .awaitedOp (.writeBytesOp (modsJarPath argv (destFilename m pk)) bk)],
               [], t, rfl⟩
    | succ k' =>
      obtain ⟨b, q, h0⟩ := hprev 0 (Nat.succ_pos _)
      have hrec := ih (fun n => f (n + 1)) k' mk mk1 bk pk (by simpa using hk)
        (by simpa using hk1) (fun j hj => hprev (j + 1) (by omega)) hfk
      have : (modLoop argv f (m :: rest)).1 =
          .awaitedOp (.fetchOp (getModUrl m)) ::
          .awaitedOp (.writeBytesOp (modsJarPath argv (destFilename m q)) b) ::
          .logA "info" ("Downloaded " ++ destFilename m q ++ ".") ::
          (modLoop argv (fun n => f (n + 1)) rest).1 := by
        simp [modLoop, h0]
      rw [this]
      exact precedes_cons _ _ _ _ (precedes_cons _ _ _ _ (precedes_cons _ _ _ _ hrec))

/-- A `script` call site launches at most one process and spawns no
filesystem operation. -/
lemma scriptActions_not_spawned (name : String) (config : Config) (argv : Argv)
    (procCwd : String) (a : Action)
    (ha : a ∈ scriptActions name config argv procCwd) : a.isSpawned = false := by
  unfold scriptActions at ha
  cases hs : script name config argv procCwd with
  | none => simp [hs] at ha
  | some child =>
    simp [hs] at ha
    subst ha
    rfl

/-- Both opening actions (root staging, manifest read) are awaited. -/
lemma opening_not_spawned (argv : Argv) (a : Action) (ha : a ∈ opening argv) :
    a.isSpawned = false := by
  simp [opening] at ha
  rcases ha with rfl | rfl <;> rfl

/-- Both splash actions (properties write, report) are awaited. -/
lemma splashPart_not_spawned (argv : Argv) (config : Config) (now : String)
    (a : Action) (ha : a ∈ splashPart argv config now) : a.isSpawned = false := by
  unfold splashPart at ha
  cases hs : config.splash with
  | none => simp [hs] at ha
  | some splash =>
    simp [hs] at ha
    rcases ha with rfl | rfl <;> rfl

/-- The only action the servers step can contribute is the spawned
`servers.dat` write of a present `config.servers`. -/
lemma serversPart_mem (argv : Argv) (config : Config) (a : Action)
    (ha : a ∈ serversPart argv config) :
    ∃ servers, config.servers = some servers ∧
      a = .spawnedOp (.writeServersOp (serversDatPath argv) "servers"
        (serversNbt servers).2) := by
  unfold serversPart at ha
  cases hs : config.servers with
  | none => simp [hs] at ha
  | some servers =>
    simp [hs] at ha
    subst ha
    exact ⟨servers, rfl, rfl⟩

/-- Every spawned (non-awaited) action of the pre-mod-loop trace is the
`servers.dat` write, and it occurs only when `config.servers` is present. -/
lemma beforeMods_spawned (argv : Argv) (config : Config) (now procCwd : String)
    (a : Action) (ha : a ∈ beforeMods argv config now procCwd)
    (hsp : a.isSpawned = true) :
    ∃ servers, config.servers = some servers ∧
      a = .spawnedOp (.writeServersOp (serversDatPath argv) "servers"
        (serversNbt servers).2) := by
  unfold beforeMods at ha
  simp only [List.append_assoc, List.mem_append, List.mem_singleton] at ha
  rcases ha with h | h | rfl | h | rfl | h | rfl
  · simp [opening_not_spawned argv a h] at hsp
  · simp [scriptActions_not_spawned "start" config argv procCwd a h] at hsp
  · simp [Action.isSpawned] at hsp
  · exact serversPart_mem argv config a h
  · simp [Action.isSpawned] at hsp
  · simp [splashPart_not_spawned argv config now a h] at hsp
  · simp [Action.isSpawned] at hsp

/-- On a validated manifest the run's trace is the pre-loop trace, the mod
loop trace, and (when the loop succeeds) the finish hook and final report. -/
lemma runHandler_valid_split (argv : Argv) (config : Config)
    (f : Nat → FetchOutcome) (now procCwd : String)
    (h : invalidFormat config = false) :
    ∃ post, (runHandler argv (some config) f now procCwd).1 =
      beforeMods argv config now procCwd ++ (modLoop argv f config.mods).1 ++ post := by
  unfold runHandler
  cases hok : (modLoop argv f config.mods).2 with
  | true =>
    exact ⟨scriptActions "finish" config argv procCwd ++ [.logA "info" "Finished!"],
      by simp [h, hok]⟩
  | false => exact ⟨[], by simp [h, hok]⟩

/-- Every spawned action of a whole run is the `servers.dat` write of a
present `config.servers`. -/
lemma runHandler_spawned (argv : Argv) (parsed : Option Config)
    (f : Nat → FetchOutcome) (now procCwd : String) (a : Action)
    (ha : a ∈ (runHandler argv parsed f now procCwd).1)
    (hsp : a.isSpawned = true) :
    ∃ config servers, parsed = some config ∧ config.servers = some servers ∧
      a = .spawnedOp (.writeServersOp (serversDatPath argv) "servers"
        (serversNbt servers).2) := by
  cases parsed with
  | none =>
    simp only [runHandler, List.mem_append, List.mem_singleton] at ha
    rcases ha with h | rfl
    · simp [opening_not_spawned argv a h] at hsp
    · simp [Action.isSpawned] at hsp
  | some config =>
    by_cases h : invalidFormat config = true
    · simp only [runHandler, h, if_true, List.mem_append, List.mem_singleton] at ha
      rcases ha with h' | rfl
      · simp [opening_not_spawned argv a h'] at hsp
      · simp [Action.isSpawned] at hsp
    · rw [Bool.not_eq_true] at h
      unfold runHandler at ha
      cases hok : (modLoop argv f config.mods).2 with
      | true =>
        simp only [h, Bool.false_eq_true, if_false, hok, if_true, List.append_assoc,
          List.mem_append, List.mem_singleton] at ha
        rcases ha with hb | hm | hfin | rfl
        · obtain ⟨servers, hs, rfl⟩ := beforeMods_spawned argv config now procCwd a hb hsp
          exact ⟨config, servers, rfl, hs, rfl⟩
        · simp [modLoop_not_spawned argv config.mods f a hm] at hsp
        · simp [scriptActions_not_spawned "finish" config argv procCwd a hfin] at hsp
        · simp [Action.isSpawned] at hsp
      | false =>
        simp only [h, Bool.false_eq_true, if_false, hok, List.append_assoc,
          List.mem_append, List.mem_singleton] at ha
        rcases ha with hb | hm
        · obtain ⟨servers, hs, rfl⟩ := beforeMods_spawned argv config now procCwd a hb hsp
          exact ⟨config, servers, rfl, hs, rfl⟩
        · simp [modLoop_not_spawned argv config.mods f a hm] at hsp

lemma serversNbt_fst (l : List Server) : (serversNbt l).1 = "servers" := rfl

lemma intercalate_single (s x : String) : String.intercalate s [x] = x := rfl

lemma intercalate_pair (s x y : String) : String.intercalate s [x, y] = x ++ s ++ y := rfl

/-- C1 fails as stated: the destination root directory is staged (created
when absent, emptied when the clean flag is set) before the manifest is even
read, so a destination-filesystem mutation precedes the fatal validation
failure. Concretely, a clean run on an unparsable manifest first stages the
root — and staging a root that holds a pre-existing file deletes it — and
only then fails fatally. -/
theorem claim_C1_counterexample :
    runHandler ⟨"pack.json", "/dest", true, false⟩ none (fun _ => .failure)
        "now" "/cwd" =
      ([.awaitedOp (.stageOp [] true), .awaitedOp (.readConfigOp "pack.json"),
        .logA "critical" readFailMsg], .exited 0) ∧
    ensure ⟨"pack.json", "/dest", true, false⟩ (some ["existing-save.dat"]) = some [] :=
  ⟨rfl, rfl⟩

/-- C1 amended: for every manifest that is unparsable, or missing
`pack.format`, or with a non-numeric `pack.format`, the run fails fatally
during validation before any subdirectory staging, file write, fetch or hook
launch — the only preceding filesystem work is the staging of the destination
root itself (and the manifest read), which happens before validation. -/
theorem claim_C1_validation_fails_fatally (argv : Argv) (parsed : Option Config)
    (f : Nat → FetchOutcome) (now procCwd : String)
    (h : parsed = none ∨ ∃ config, parsed = some config ∧ invalidFormat config = true) :
    ∃ msg, (msg = readFailMsg ∨ msg = formatFailMsg) ∧
      runHandler argv parsed f now procCwd =
        ([.awaitedOp (.stageOp [] argv.clean), .awaitedOp (.readConfigOp argv.config),
          .logA "critical" msg], .exited 0) := by
  rcases h with rfl | ⟨config, rfl, hinv⟩
  · exact ⟨readFailMsg, Or.inl rfl, by simp [runHandler, opening]⟩
  · exact ⟨formatFailMsg, Or.inr rfl, by simp [runHandler, opening, hinv]⟩

/-- Witness for C1 amended: a manifest with a non-numeric `pack.format`. -/
theorem claim_C1_validation_fails_fatally_witness :
    ∃ msg, (msg = readFailMsg ∨ msg = formatFailMsg) ∧
      runHandler ⟨"pack.json", "/dest", false, false⟩
          (some ⟨some ⟨none, some (.jstr "beta")⟩, none, none, [], none⟩)
          (fun _ => .failure) "now" "/cwd" =
        ([.awaitedOp (.stageOp [] false), .awaitedOp (.readConfigOp "pack.json"),
          .logA "critical" msg], .exited 0) :=
  claim_C1_validation_fails_fatally ⟨"pack.json", "/dest", false, false⟩
    (some ⟨some ⟨none, some (.jstr "beta")⟩, none, none, [], none⟩)
    (fun _ => .failure) "now" "/cwd"
    (Or.inr ⟨⟨some ⟨none, some (.jstr "beta")⟩, none, none, [], none⟩, rfl, by decide⟩)

/-- C2 fails as stated: `pack.format = 0` is present and numeric
(`isNaN(0)` is false), yet the truthiness test `!config.pack.format` rejects
it, so the run fails fatally at the ValidateManifest step. -/
theorem claim_C2_counterexample :
    jsIsNaN (JVal.jnum 0) = false ∧
    runHandler ⟨"pack.json", "/dest", false, false⟩
        (some ⟨some ⟨none, some (.jnum 0)⟩, none, none, [], none⟩)
        (fun _ => .failure) "now" "/cwd" =
      ([.awaitedOp (.stageOp [] false), .awaitedOp (.readConfigOp "pack.json"),
        .logA "critical" formatFailMsg], .exited 0) :=
  ⟨rfl, rfl⟩

/-- C2 amended: validation succeeds for every manifest whose `pack` is
present and whose `pack.format` is present, JS-truthy and numeric — the
schema check passes and the run proceeds past validation to the installing
report. Falsy numeric values, `0` in particular, are rejected. -/
theorem claim_C2_validation_succeeds (argv : Argv) (config : Config)
    (pack : Pack) (v : JVal) (f : Nat → FetchOutcome) (now procCwd : String)
    (hpack : config.pack = some pack) (hfmt : pack.format = some v)
    (htruthy : v.truthy = true) (hnum : jsIsNaN v = false) :
    invalidFormat config = false ∧
    Action.logA "info" (installMsg config) ∈
      (runHandler argv (some config) f now procCwd).1 := by
  have hinv : invalidFormat config = false := by
    simp [invalidFormat, hpack, hfmt, htruthy, hnum]
  refine ⟨hinv, ?_⟩
  obtain ⟨post, hpost⟩ := runHandler_valid_split argv config f now procCwd hinv
  rw [hpost]
  refine List.mem_append_left _ (List.mem_append_left _ ?_)
  unfold beforeMods
  simp

/-- Witness for C2 amended: a manifest with `pack.format = 1`. -/
theorem claim_C2_validation_succeeds_witness :
    invalidFormat ⟨some ⟨none, some (.jnum 1)⟩, none, none, [], none⟩ = false ∧
    Action.logA "info" (installMsg ⟨some ⟨none, some (.jnum 1)⟩, none, none, [], none⟩) ∈
      (runHandler ⟨"cfg", "/dest", false, false⟩
        (some ⟨some ⟨none, some (.jnum 1)⟩, none, none, [], none⟩)
        (fun _ => .failure) "now" "/cwd").1 :=
  claim_C2_validation_succeeds ⟨"cfg", "/dest", false, false⟩
    ⟨some ⟨none, some (.jnum 1)⟩, none, none, [], none⟩
    ⟨none, some (.jnum 1)⟩ (.jnum 1) (fun _ => .failure) "now" "/cwd"
    rfl rfl (by decide) (by decide)

/-- C3 fails as stated: the `servers.dat` write is started with a bare
`.then` and never awaited, so it is a spawned operation whose completion is
unordered with everything after it; the config-directory staging occurs
later in program order while the write may still be in flight. Concretely,
in a run over a one-server manifest the spawned write strictly precedes the
config staging in the start order, and being spawned it is not awaited
before that staging begins. -/
theorem claim_C3_counterexample :
    Action.isSpawned (.spawnedOp (.writeServersOp "/dest/servers.dat" "servers"
      (serversNbt [⟨"A", "1.2.3.4"⟩]).2)) = true ∧
    precedes (runHandler ⟨"cfg", "/dest", false, false⟩
        (some ⟨some ⟨none, some (.jnum 1)⟩, some [⟨"A", "1.2.3.4"⟩], none, [], none⟩)
        (fun _ => .failure) "now" "/cwd").1
      (.spawnedOp (.writeServersOp "/dest/servers.dat" "servers"
        (serversNbt [⟨"A", "1.2.3.4"⟩]).2))
      (.awaitedOp (.stageOp ["config"] false)) := by
  refine ⟨rfl, ?_⟩
  exact ⟨[.awaitedOp (.stageOp [] false), .awaitedOp (.readConfigOp "cfg"),
          .logA "info" "Installing the modpack."], [],
         [.awaitedOp (.stageOp ["mods"] false), .logA "info" "Finished!"], rfl⟩

/-- C3 amended: every filesystem and network operation of the pipeline is
awaited to completion before the next step starts except the `servers.dat`
write, which is the only spawned operation; the mod loop itself is strictly
sequential, so the placement report of item `k` strictly precedes the fetch
of item `k + 1` for every `k`. -/
theorem claim_C3_sequencing (argv : Argv) (config : Config)
    (f : Nat → FetchOutcome) (now procCwd : String) (k : Nat) (mk mk1 : Mod)
    (bk pk : String)
    (hval : invalidFormat config = false)
    (hk : config.mods.get? k = some mk)
    (hk1 : config.mods.get? (k + 1) = some mk1)
    (hprev : ∀ j < k, ∃ b q, f j = .success b q)
    (hfk : f k = .success bk pk) :
    (∀ a ∈ (runHandler argv (some config) f now procCwd).1, a.isSpawned = true →
      ∃ servers, config.servers = some servers ∧
        a = .spawnedOp (.writeServersOp (serversDatPath argv) "servers"
          (serversNbt servers).2)) ∧
    precedes (runHandler argv (some config) f now procCwd).1
      (.logA "info" ("Downloaded " ++ destFilename mk pk ++ "."))
      (.awaitedOp (.fetchOp (getModUrl mk1))) := by
  constructor
  · intro a ha hsp
    obtain ⟨config', servers, hc, hs, hEq⟩ :=
      runHandler_spawned argv (some config) f now procCwd a ha hsp
    cases Option.some.inj hc
    exact ⟨servers, hs, hEq⟩
  · obtain ⟨post, hpost⟩ := runHandler_valid_split argv config f now procCwd hval
    rw [hpost]
    exact precedes_append_right _ _ _ _ (precedes_append_left _ _ _ _
      (modLoop_seq argv config.mods f k mk mk1 bk pk hk hk1 hprev hfk))

/-- Witness for C3 amended: a two-item manifest with successful fetches. -/
theorem claim_C3_sequencing_witness :
    (∀ a ∈ (runHandler ⟨"cfg", "/dest", false, false⟩
        (some ⟨some ⟨none, some (.jnum 1)⟩, none, none,
          [⟨none, "", "", "https://ex.com/a.jar", some "modA"⟩,
           ⟨none, "", "", "https://ex.com/b.jar", some "modB"⟩], none⟩)
        (fun _ => .success "B" "/m/file.jar") "now" "/cwd").1,
      a.isSpawned = true →
      ∃ servers,
        Config.servers ⟨some ⟨none, some (.jnum 1)⟩, none, none,
          [⟨none, "", "", "https://ex.com/a.jar", some "modA"⟩,
           ⟨none, "", "", "https://ex.com/b.jar", some "modB"⟩], none⟩ = some servers ∧
        a = .spawnedOp (.writeServersOp
          (serversDatPath ⟨"cfg", "/dest", false, false⟩) "servers"
          (serversNbt servers).2)) ∧
    precedes (runHandler ⟨"cfg", "/dest", false, false⟩
        (some ⟨some ⟨none, some (.jnum 1)⟩, none, none,
          [⟨none, "", "", "https://ex.com/a.jar", some "modA"⟩,
           ⟨none, "", "", "https://ex.com/b.jar", some "modB"⟩], none⟩)
        (fun _ => .success "B" "/m/file.jar") "now" "/cwd").1
      (.logA "info" ("Downloaded " ++
        destFilename ⟨none, "", "", "https://ex.com/a.jar", some "modA"⟩ "/m/file.jar"
        ++ "."))
      (.awaitedOp (.fetchOp (getModUrl
        ⟨none, "", "", "https://ex.com/b.jar", some "modB"⟩))) :=
  claim_C3_sequencing ⟨"cfg", "/dest", false, false⟩
    ⟨some ⟨none, some (.jnum 1)⟩, none, none,
      [⟨none, "", "", "https://ex.com/a.jar", some "modA"⟩,
       ⟨none, "", "", "https://ex.com/b.jar", some "modB"⟩], none⟩
    (fun _ => .success "B" "/m/file.jar") "now" "/cwd" 0
    ⟨none, "", "", "https://ex.com/a.jar", some "modA"⟩
    ⟨none, "", "", "https://ex.com/b.jar", some "modB"⟩
    "B" "/m/file.jar"
    (by decide) rfl rfl (fun j hj => absurd hj (Nat.not_lt_zero j)) rfl

/-- C4 fails as stated: a manifest whose `servers` field is an empty sequence
still produces the `servers.dat` write, because the guard `if (config.servers)`
tests only JS truthiness and every array — empty included — is truthy. -/
theorem claim_C4_counterexample :
    Action.spawnedOp (Op.writeServersOp "/dest/servers.dat" "servers"
        (serversNbt []).2) ∈
      (runHandler ⟨"cfg", "/dest", false, false⟩
        (some ⟨some ⟨none, some (.jnum 1)⟩, some [], none, [], none⟩)
        (fun _ => .failure) "now" "/cwd").1 := by
  have hpath : serversDatPath ⟨"cfg", "/dest", false, false⟩ = "/dest/servers.dat" := rfl
  rw [← hpath]
  have hinv : invalidFormat ⟨some ⟨none, some (.jnum 1)⟩, some [], none, [], none⟩ = false := by
    decide
  obtain ⟨post, hpost⟩ := runHandler_valid_split ⟨"cfg", "/dest", false, false⟩
    ⟨some ⟨none, some (.jnum 1)⟩, some [], none, [], none⟩
    (fun _ => .failure) "now" "/cwd" hinv
  rw [hpost]
  refine List.mem_append_left _ (List.mem_append_left _ ?_)
  unfold beforeMods serversPart
  simp [serversNbt_fst]

/-- C4 amended: on a validated manifest the `servers.dat` write occurs if and
only if `manifest.servers` is present — emptiness of the sequence is not
tested, so an empty `servers` still produces the file. -/
theorem claim_C4_servers_write_iff (argv : Argv) (config : Config)
    (f : Nat → FetchOutcome) (now procCwd : String)
    (h : invalidFormat config = false) :
    (∃ rootName data,
        Action.spawnedOp (Op.writeServersOp (serversDatPath argv) rootName data) ∈
          (runHandler argv (some config) f now procCwd).1) ↔
      config.servers.isSome = true := by
  constructor
  · rintro ⟨rootName, data, hmem⟩
    obtain ⟨config', servers, hc, hs, _⟩ :=
      runHandler_spawned argv (some config) f now procCwd _ hmem rfl
    cases Option.some.inj hc
    simp [hs]
  · intro hs
    obtain ⟨servers, hs'⟩ := Option.isSome_iff_exists.mp hs
    refine ⟨"servers", (serversNbt servers).2, ?_⟩
    obtain ⟨post, hpost⟩ := runHandler_valid_split argv config f now procCwd h
    rw [hpost]
    refine List.mem_append_left _ (List.mem_append_left _ ?_)
    unfold beforeMods serversPart
    simp [hs', serversNbt_fst]

/-- Witness for C4 amended: a manifest with one server entry produces the
`servers.dat` write. -/
theorem claim_C4_servers_write_iff_witness :
    ∃ rootName data,
      Action.spawnedOp (Op.writeServersOp
          (serversDatPath ⟨"cfg", "/dest", false, false⟩) rootName data) ∈
        (runHandler ⟨"cfg", "/dest", false, false⟩
          (some ⟨some ⟨none, some (.jnum 1)⟩, some [⟨"A", "1.2.3.4"⟩], none, [], none⟩)
          (fun _ => .failure) "now" "/cwd").1 :=
  (claim_C4_servers_write_iff ⟨"cfg", "/dest", false, false⟩
    ⟨some ⟨none, some (.jnum 1)⟩, some [⟨"A", "1.2.3.4"⟩], none, [], none⟩
    (fun _ => .failure) "now" "/cwd" (by decide)).mpr rfl

/-- C5: whenever a critical-severity condition is reported the process exits
immediately with status 0, the same status a fully successful run ends with,
so the exit code cannot distinguish fatal failure from success: the
`critical` log type carries the exit flag, the exit call uses status 0, and
every run of the pipeline — fatal or complete — ends with process status
0. -/
theorem claim_C5_fatal_exit_status_zero (argv : Argv) (parsed : Option Config)
    (f : Nat → FetchOutcome) (now procCwd : String) :
    (logTypeOf "critical").exit = true ∧
    logExitStatus "critical" = some 0 ∧
    runExitStatus (runHandler argv parsed f now procCwd).2 = 0 ∧
    runExitStatus RunOutcome.completed = 0 := by
  refine ⟨rfl, rfl, ?_, rfl⟩
  cases parsed with
  | none => rfl
  | some config =>
    unfold runHandler
    by_cases h : invalidFormat config
    · simp [h, runExitStatus]
    · simp only [h, Bool.false_eq_true, if_false]
      cases hok : (modLoop argv f config.mods).2 <;> simp [hok, runExitStatus]

/-- C6: when the fetch of mod `k` fails (all earlier fetches having
succeeded), the run ends fatally: the trace ends at the critical log — whose
message carries `item.name` when present and is the generic could-not-fetch
message otherwise — so the failed item's file is never written and no later
item is fetched (no retry, no skip-and-continue). -/
theorem claim_C6_fetch_failure_aborts (argv : Argv) (config : Config)
    (f : Nat → FetchOutcome) (now procCwd : String) (k : Nat) (m : Mod)
    (hval : invalidFormat config = false)
    (hk : config.mods.get? k = some m)
    (hprev : ∀ j < k, ∃ b p, f j = .success b p)
    (hfk : f k = .failure) :
    (runHandler argv (some config) f now procCwd).2 = .exited 0 ∧
    (∃ l1, (runHandler argv (some config) f now procCwd).1 =
      l1 ++ [.awaitedOp (.fetchOp (getModUrl m)),
             .logA "critical" (fetchFailMsg m)]) ∧
    (∀ s, m.name = some s → s ≠ "" →
      fetchFailMsg m = "Could not fetch " ++ s ++ ".") ∧
    (strTruthy m.name = false → fetchFailMsg m = "Could not fetch a mod.") := by
  obtain ⟨l1, hl1, hok⟩ := modLoop_failure argv config.mods f k m hk hprev hfk
  have h2 : runHandler argv (some config) f now procCwd =
      (beforeMods argv config now procCwd ++ (modLoop argv f config.mods).1,
       .exited 0) := by
    unfold runHandler
    simp [hval, hok]
  refine ⟨by rw [h2], ⟨beforeMods argv config now procCwd ++ l1, ?_⟩, ?_, ?_⟩
  · rw [h2, hl1]
    simp [List.append_assoc]
  · intro s hs hne
    simp [fetchFailMsg, hs, hne]
  · intro hfalse
    cases hn : m.name with
    | none => simp [fetchFailMsg, hn]
    | some s =>
      rw [hn] at hfalse
      simp [strTruthy] at hfalse
      simp [fetchFailMsg, hn, hfalse]

/-- Witness for C6: a one-item manifest whose fetch fails. -/
theorem claim_C6_fetch_failure_aborts_witness :
    (runHandler ⟨"cfg", "/dest", false, false⟩
        (some ⟨some ⟨none, some (.jnum 1)⟩, none, none,
          [⟨none, "", "", "https://ex.com/a.jar", some "modA"⟩], none⟩)
        (fun _ => .failure) "now" "/cwd").2 = .exited 0 ∧
    (∃ l1, (runHandler ⟨"cfg", "/dest", false, false⟩
        (some ⟨some ⟨none, some (.jnum 1)⟩, none, none,
          [⟨none, "", "", "https://ex.com/a.jar", some "modA"⟩], none⟩)
        (fun _ => .failure) "now" "/cwd").1 =
      l1 ++ [.awaitedOp (.fetchOp (getModUrl
               ⟨none, "", "", "https://ex.com/a.jar", some "modA"⟩)),
             .logA "critical" (fetchFailMsg
               ⟨none, "", "", "https://ex.com/a.jar", some "modA"⟩)]) ∧
    (∀ s, Mod.name ⟨none, "", "", "https://ex.com/a.jar", some "modA"⟩ = some s →
      s ≠ "" →
      fetchFailMsg ⟨none, "", "", "https://ex.com/a.jar", some "modA"⟩ =
        "Could not fetch " ++ s ++ ".") ∧
    (strTruthy (Mod.name ⟨none, "", "", "https://ex.com/a.jar", some "modA"⟩) = false →
      fetchFailMsg ⟨none, "", "", "https://ex.com/a.jar", some "modA"⟩ =
        "Could not fetch a mod.") :=
  claim_C6_fetch_failure_aborts ⟨"cfg", "/dest", false, false⟩
    ⟨some ⟨none, some (.jnum 1)⟩, none, none,
      [⟨none, "", "", "https://ex.com/a.jar", some "modA"⟩], none⟩
    (fun _ => .failure) "now" "/cwd" 0
    ⟨none, "", "", "https://ex.com/a.jar", some "modA"⟩
    (by decide) rfl (fun j hj => absurd hj (Nat.not_lt_zero j)) rfl

/-- C8: the destination filename of every fetched mod is `item.name` when
present, otherwise the last segment of the resolved request pathname, always
with the fixed `.jar` suffix appended regardless of the source extension;
the written file lands in the mods directory. In particular an item
`{url:"https://x/y/z.jar"}` with no name is written as `z.jar.jar`. -/
theorem claim_C8_destination_filename (argv : Argv) (config : Config)
    (f : Nat → FetchOutcome) (now procCwd : String) (k : Nat) (m : Mod)
    (body p : String)
    (hval : invalidFormat config = false)
    (hk : config.mods.get? k = some m)
    (hprev : ∀ j < k, ∃ b q, f j = .success b q)
    (hfk : f k = .success body p) :
    Action.awaitedOp (.writeBytesOp (modsJarPath argv (destFilename m p)) body) ∈
      (runHandler argv (some config) f now procCwd).1 ∧
    destFilename m p = jsOrStr m.name (lastSegment p) ++ ".jar" ∧
    destFilename ⟨none, "", "", "https://x/y/z.jar", none⟩
      (urlPathname "https://x/y/z.jar") = "z.jar.jar" ∧
    modsJarPath argv (destFilename m p) =
      argv.folder ++ "/mods/" ++ destFilename m p := by
  refine ⟨?_, rfl, rfl, rfl⟩
  obtain ⟨post, hpost⟩ := runHandler_valid_split argv config f now procCwd hval
  rw [hpost]
  exact List.mem_append_left _ (List.mem_append_right _
    (modLoop_write_mem argv config.mods f k m body p hk hprev hfk))

/-- Witness for C8: a one-item manifest with no `name` whose fetch resolves
to `https://x/y/z.jar`: the write goes to `<root>/mods/z.jar.jar`. -/
theorem claim_C8_destination_filename_witness :
    Action.awaitedOp (.writeBytesOp
        (modsJarPath ⟨"cfg", "/dest", false, false⟩
          (destFilename ⟨none, "", "", "https://x/y/z.jar", none⟩
            (urlPathname "https://x/y/z.jar"))) "JARBYTES") ∈
      (runHandler ⟨"cfg", "/dest", false, false⟩
        (some ⟨some ⟨none, some (.jnum 1)⟩, none, none,
          [⟨none, "", "", "https://x/y/z.jar", none⟩], none⟩)
        (fun _ => .success "JARBYTES" (urlPathname "https://x/y/z.jar"))
        "now" "/cwd").1 ∧
    destFilename ⟨none, "", "", "https://x/y/z.jar", none⟩
      (urlPathname "https://x/y/z.jar") = "z.jar.jar" :=
  ⟨(claim_C8_destination_filename ⟨"cfg", "/dest", false, false⟩
      ⟨some ⟨none, some (.jnum 1)⟩, none, none,
        [⟨none, "", "", "https://x/y/z.jar", none⟩], none⟩
      (fun _ => .success "JARBYTES" (urlPathname "https://x/y/z.jar"))
      "now" "/cwd" 0 ⟨none, "", "", "https://x/y/z.jar", none⟩
      "JARBYTES" (urlPathname "https://x/y/z.jar")
      (by decide) rfl (fun j hj => absurd hj (Nat.not_lt_zero j)) rfl).1,
   rfl⟩

/-- C7: the key-value config writer emits, in order, a `# header` line
(omitted when the header is empty), a `# timestamp` line (omitted when the
timestamp flag is off), then one `key=value` line per entry in insertion
order without escaping; concretely `render({a:"1", b:"2"}, "H", false)` is
`"# H\na=1\nb=2"` and `render({}, "", false)` is `""`. -/
theorem claim_C7_key_value_writer (k1 v1 k2 v2 header now : String)
    (hh : header ≠ "") :
    keyValConfig [("a", "1"), ("b", "2")] "H" false now = "# H\na=1\nb=2" ∧
    keyValConfig [] "" false now = "" ∧
    keyValConfig [(k1, v1), (k2, v2)] header false now =
      "# " ++ header ++ "\n" ++ (k1 ++ "=" ++ v1) ++ "\n" ++ (k2 ++ "=" ++ v2) ∧
    keyValConfig [(k1, v1)] "" true now = "# " ++ now ++ "\n" ++ (k1 ++ "=" ++ v1) := by
  refine ⟨rfl, rfl, ?_, ?_⟩
  · simp [keyValConfig, hh, intercalate_pair, String.append_assoc]
  · simp [keyValConfig, intercalate_single, String.append_assoc]

/-- Witness for C7 at concrete inputs. -/
theorem claim_C7_key_value_writer_witness :
    keyValConfig [("a", "1"), ("b", "2")] "H" false "now" = "# H\na=1\nb=2" ∧
    keyValConfig [] "" false "now" = "" ∧
    keyValConfig [("a", "1"), ("b", "2")] "H" false "now" =
      "# " ++ "H" ++ "\n" ++ ("a" ++ "=" ++ "1") ++ "\n" ++ ("b" ++ "=" ++ "2") ∧
    keyValConfig [("a", "1")] "" true "now" = "# " ++ "now" ++ "\n" ++ ("a" ++ "=" ++ "1") :=
  claim_C7_key_value_writer "a" "1" "b" "2" "H" "now" (by decide)

/-- C9 fails as stated: the hook runner passes `exec` an environment object
containing only `MODPACK_FOLDER`, which replaces rather than augments the
parent process environment. With a parent environment holding `PATH`, the
claimed augmented environment would also hold `PATH`, but the launched
child's environment is exactly the one `MODPACK_FOLDER` binding. -/
theorem claim_C9_counterexample :
    script "start"
        ⟨some ⟨none, some (.jnum 1)⟩, none, none, [], some [("start", "echo hi")]⟩
        ⟨"cfg", "/dest", false, false⟩ "/cwd" =
      some ⟨"echo hi", "/cwd", [("MODPACK_FOLDER", "/dest")]⟩ ∧
    Launched.env ⟨"echo hi", "/cwd", [("MODPACK_FOLDER", "/dest")]⟩ ≠
      [("PATH", "/bin"), ("MODPACK_FOLDER", "/dest")] ∧
    ("PATH", "/bin") ∉ Launched.env ⟨"echo hi", "/cwd", [("MODPACK_FOLDER", "/dest")]⟩ := by
  refine ⟨rfl, by decide, by decide⟩

/-- C9 amended: the hook runner launches nothing when hooks are disabled,
when the manifest has no `scripts` section, or when `scripts[hookName]` is
absent or empty; otherwise it launches `scripts[hookName]` as a shell command
with working directory equal to the process's current working directory and
an environment consisting solely of the single variable `MODPACK_FOLDER`
bound to the destination root (the parent environment is not inherited). -/
theorem claim_C9_hook_runner (name : String) (config : Config) (argv : Argv)
    (procCwd : String) :
    ((argv.ignoreScripts = true ∨ config.scripts = none ∨
        ∃ scr, config.scripts = some scr ∧
          (scr.lookup name = none ∨ scr.lookup name = some "")) →
      script name config argv procCwd = none) ∧
    ∀ scr cmd, argv.ignoreScripts = false → config.scripts = some scr →
      scr.lookup name = some cmd → cmd ≠ "" →
      script name config argv procCwd =
        some ⟨cmd, procCwd, [("MODPACK_FOLDER", argv.folder)]⟩ := by
  constructor
  · rintro (hig | hnone | ⟨scr, hscr, habs | hempty⟩)
    · simp [script, hig]
    · simp [script, hnone]
    · simp [script, hscr, habs]
    · simp [script, hscr, hempty]
  · intro scr cmd hig hscr hcmd hne
    simp [script, hig, hscr, hcmd, hne]

/-- Witness for C9 at concrete inputs: one launching call and one no-op. -/
theorem claim_C9_hook_runner_witness :
    script "start"
        ⟨some ⟨none, some (.jnum 1)⟩, none, none, [], some [("start", "make setup")]⟩
        ⟨"cfg", "/root-dir", false, false⟩ "/work" =
      some ⟨"make setup", "/work", [("MODPACK_FOLDER", "/root-dir")]⟩ ∧
    script "finish"
        ⟨some ⟨none, some (.jnum 1)⟩, none, none, [], some [("start", "make setup")]⟩
        ⟨"cfg", "/root-dir", false, false⟩ "/work" = none := by
  constructor
  · exact (claim_C9_hook_runner "start"
      ⟨some ⟨none, some (.jnum 1)⟩, none, none, [], some [("start", "make setup")]⟩
      ⟨"cfg", "/root-dir", false, false⟩ "/work").2
      [("start", "make setup")] "make setup" rfl rfl rfl (by decide)
  · exact (claim_C9_hook_runner "finish"
      ⟨some ⟨none, some (.jnum 1)⟩, none, none, [], some [("start", "make setup")]⟩
      ⟨"cfg", "/root-dir", false, false⟩ "/work").1
      (Or.inr (Or.inr ⟨[("start", "make setup")], rfl, Or.inl rfl⟩))

/-- C10: staging with `clean` leaves the target directory existing and empty,
deleting any pre-existing contents; staging without `clean` leaves the target
directory existing, creating it empty when absent and leaving pre-existing
contents untouched. -/
theorem claim_C10_directory_stager (argv : Argv) (st : DirState) :
    (ensure argv st).isSome = true ∧
    (argv.clean = true → ensure argv st = some []) ∧
    (argv.clean = false → st = none → ensure argv st = some []) ∧
    (argv.clean = false → ∀ files, st = some files → ensure argv st = some files) := by
  refine ⟨?_, ?_, ?_, ?_⟩
  · unfold ensure fsEmptyDir fsEnsureDir
    by_cases h : argv.clean <;> simp [h]
  · intro h; simp [ensure, h, fsEmptyDir]
  · intro h hst; simp [ensure, h, fsEnsureDir, hst]
  · intro h files hst; simp [ensure, h, fsEnsureDir, hst]

/-- Witness for C10 at concrete inputs: a clean run empties a directory with
a pre-existing file, a non-clean run preserves it. -/
theorem claim_C10_directory_stager_witness :
    ensure ⟨"cfg", "/dest", true, false⟩ (some ["old.jar"]) = some [] ∧
    ensure ⟨"cfg", "/dest", false, false⟩ (some ["old.jar"]) = some ["old.jar"] :=
  ⟨(claim_C10_directory_stager ⟨"cfg", "/dest", true, false⟩ (some ["old.jar"])).2.1 rfl,
   (claim_C10_directory_stager ⟨"cfg", "/dest", false, false⟩ (some ["old.jar"])).2.2.2
     rfl ["old.jar"] rfl⟩

end ModpackInstaller
